import Mathlib

/-!
Shallow embedding of the `initComponent` thunk of `react-redux-component-init`
(source file `src/actions/initComponent.js`, given as `src/unnamed/part_001`)
together with the `PrepareValidationError` messages it throws.

The thunk is deterministic for a fixed behaviour of the two optional
user-supplied actions, so we embed it as a pure function from its inputs
(component, init values, prepare key, caller, init state) and the behaviour of
the supplied actions to a trace of observable events (store dispatches, action
invocations, `onError` invocations) and a final outcome (synchronous throw,
resolved promise, rejected promise).
-/

namespace ReduxInit

/-- Value of the `initMode` field of the init state (`MODE_PREPARE` and
`MODE_INIT_SELF` string constants in the source). -/
inductive Mode
  | prepare
  | initSelf
deriving DecidableEq, Repr

/-- Value of the `initSelf` option (`INIT_SELF_NEVER`, `INIT_SELF_ASYNC`,
`INIT_SELF_BLOCKING` string constants in the source). -/
inductive InitSelfMode
  | never
  | async
  | blocking
deriving DecidableEq, Repr

/-- JavaScript values as far as this module observes them: the resolved values
of the supplied actions, the init prop values, and the combined result.  The
two-element array `[serverValue, clientValue]` built by the result combination
is `arr2`. -/
inductive JsValue
  | undef
  | bool (b : Bool)
  | num (n : Int)
  | str (s : String)
  | arr2 (first second : JsValue)
deriving DecidableEq, Repr

/-- A JavaScript error value as observed by the catch handler: its message and
its `isInvalidReturnError` flag (absent = `false`). -/
structure JsError where
  message : String
  isInvalidReturnError : Bool
deriving DecidableEq, Repr

/-- Settlement of a promise: fulfilled with a value or rejected with an error. -/
inductive PromiseOutcome
  | fulfilled (v : JsValue)
  | rejectedWith (e : JsError)
deriving DecidableEq, Repr

/-- Behaviour of the value returned by one invocation of a supplied action.
`thenable` is a value whose `then` property is a function (a promise), and the
given settlement is how it settles.  `nonThenable` is a value on which property
access succeeds but `typeof value.then` is not `"function"`; `typeName` is
`typeof value`.  `nullish` is `null` or `undefined`: in the source, evaluating
`initActionReturn.then` on such a value makes the host runtime throw a
TypeError before the `typeof` comparison is ever made. -/
inductive ActionReturn
  | thenable (outcome : PromiseOutcome)
  | nonThenable (typeName : String)
  | nullish (isNull : Bool)
deriving DecidableEq, Repr

/-- Serialization of a JavaScript value, as produced by `JSON.stringify`.
Modelled from the spec: the source calls the host `JSON.stringify`, which is
not part of the repository; the spec only requires that the concrete input
values appear serialized in the `PreparationMissing` message. -/
def jsonOfValue : JsValue → String
  | .undef => "null"
  | .bool b => if b then "true" else "false"
  | .num n => toString n
  | .str s => "\"" ++ s ++ "\""
  | .arr2 a b => "[" ++ jsonOfValue a ++ "," ++ jsonOfValue b ++ "]"

/-- Pairing of the `initProps` names with the `initValues`, then serialized as
a JSON object.  Modelled from the spec: the source builds this object with the
`propNameValuesToObject` util (not included in the repository) and serializes
it with the host `JSON.stringify`; the spec describes it as the component
inputs, serialized. -/
def propNameValuesJson (initProps : List String) (initValues : List JsValue) : String :=
  "\x7b" ++
    String.intercalate ","
      ((initProps.zip initValues).map fun p => "\"" ++ p.1 ++ "\":" ++ jsonOfValue p.2) ++
    "\x7d"

/-- Errors thrown synchronously by the thunk body, before any promise work:
the missing-config `Error`, the missing-state `ReferenceError`, the
invalid-caller `Error` of the switch default, and the two
`PrepareValidationError`s of the `errorNotPrepared` branch. -/
inductive SyncError
  | missingInitConfig
  | missingInitState
  | invalidCaller (caller : String)
  | preparationMissing (componentId : String) (propsJson : String)
  | preparationPending (componentId : String)
deriving DecidableEq, Repr

/-- Message carried by each synchronously thrown error, exactly as built in the
source (apostrophes written as \x27). -/
def SyncError.message : SyncError → String
  | .missingInitConfig => "No init config found on Component passed to initComponent"
  | .missingInitState => "Could not find init state. Did you attach the init reducer?"
  | .invalidCaller caller =>
      "Unexpected value \x27" ++ caller ++
        "\x27 for caller. Expected one of: \x27prepareComponent\x27, \x27didMount\x27, \x27willMount\x27, \x27willReceiveProps\x27"
  | .preparationMissing componentId propsJson =>
      "Expected component \"" ++ componentId ++
        "\" to be prepared but prepareComponent has not been called with props: \n" ++ propsJson
  | .preparationPending componentId =>
      "Expected component \"" ++ componentId ++
        "\" to be prepared but preparation is still pending"

/-- Error built when the primary action (`initAction`) returns a value whose
`then` property is not a function; `isInvalidReturnError` is set. -/
def mkInvalidReturnError (objectParam : Bool) (typeName componentId : String) : JsError :=
  { message :=
      "Expected initAction" ++ (if objectParam then ".server" else "") ++
        " to return a Promise. Returned an " ++ typeName ++
        " instead. Check the initAction for \"" ++ componentId ++ "\""
    isInvalidReturnError := true }

/-- Error built when the restricted action (`initActionClient`) returns a value
whose `then` property is not a function; `isInvalidReturnError` is set. -/
def mkInvalidReturnClientError (typeName componentId : String) : JsError :=
  { message :=
      "Expected initAction.client to return a Promise. Returned an " ++ typeName ++
        " instead. Check the initAction for \"" ++ componentId ++ "\""
    isInvalidReturnError := true }

/-- Rejection produced by the host runtime when the source evaluates
`initActionReturn.then` and the returned value is `null` or `undefined`:
the property access throws a TypeError before the `typeof` comparison.  The
exact wording is engine-dependent; the thunk only ever inspects the
`isInvalidReturnError` flag, which such a TypeError does not carry. -/
def typeErrorReadingThen (isNull : Bool) : JsError :=
  { message := "TypeError: Cannot read properties of " ++
      (if isNull then "null" else "undefined") ++ " (reading: then)"
    isInvalidReturnError := false }

/-- Options bundle of the init config, as destructured by the thunk
(`onError`, `getInitState`, `initSelf`, `allowLazy`).  `getInitState` is an
accessor into the global store state; its composition with `getState` is
modelled by passing the resulting init state (or its absence) directly to
`initComponent`.  The `onError` handler is modelled by its behaviour when
invoked: `none` = no handler configured; `some h` with `h e = none` = handler
invoked on `e` and returned normally; `h e = some e2` = handler threw `e2`. -/
structure Options where
  onError : Option (JsError → Option JsError)
  initSelf : InitSelfMode
  allowLazy : Bool

/-- The `initConfig` attached to a wrapped component, as destructured by the
thunk.  The two optional actions are modelled by the behaviour of the value
each returns when invoked in this call. -/
structure InitConfig where
  componentId : String
  initProps : List String
  initAction : Option ActionReturn
  initActionClient : Option ActionReturn
  initActionObjectParam : Bool
  options : Options

/-- A React component as far as the thunk observes it: its optional
`initConfig` static property. -/
structure ReactComponent where
  initConfig : Option InitConfig

/-- The init state slice: `mode` and the `prepared` map.  The map from prepare
keys to booleans is an association list; an absent key models `undefined`. -/
structure InitState where
  mode : Mode
  prepared : List (String × Bool)

/-- The decision record computed by the switch on `caller`. -/
structure Decision where
  errorNotPrepared : Bool
  shouldCallInitAction : Bool
  shouldCallInitActionClient : Bool
deriving DecidableEq, Repr

/-- The switch on `caller` (source lines 58 to 97): computes the decision
record from the caller name, the presence of the two actions, the mode, the
preparedness of the key, and the `initSelf` and `allowLazy` options.  `none`
models the `default` branch, which throws the invalid-caller error. -/
def initDecision (caller : String) (hasInitAction hasInitActionClient : Bool)
    (mode : Mode) (isPrepared : Bool) (initSelf : InitSelfMode) (allowLazy : Bool) :
    Option Decision :=
  if caller = "prepareComponent" then
    some { errorNotPrepared := false
           shouldCallInitAction := hasInitAction && !isPrepared
           shouldCallInitActionClient := false }
  else if caller = "willMount" then
    some { errorNotPrepared := hasInitAction && (mode == Mode.prepare) && !allowLazy
           shouldCallInitAction :=
             hasInitAction &&
               (((mode == Mode.initSelf) && !(initSelf == InitSelfMode.never) && !allowLazy) ||
                 ((mode == Mode.prepare) && !isPrepared && allowLazy))
           shouldCallInitActionClient := false }
  else if caller = "didMount" then
    some { errorNotPrepared := false
           shouldCallInitAction :=
             hasInitAction &&
               (((mode == Mode.initSelf) && !(initSelf == InitSelfMode.never) && allowLazy) ||
                 ((mode == Mode.prepare) && !isPrepared && allowLazy))
           shouldCallInitActionClient :=
             hasInitActionClient && !(initSelf == InitSelfMode.never) }
  else if caller = "willReceiveProps" then
    some { errorNotPrepared := false
           shouldCallInitAction := hasInitAction
           shouldCallInitActionClient := hasInitActionClient }
  else
    none

/-- Observable events of one invocation, in order: a store dispatch of an
`INIT_COMPONENT` action with payload `complete` / `isPrepare` / `prepareKey`,
the invocation of the primary action, the settlement of the primary action
result (or of its `Promise.resolve()` placeholder when the primary action is
skipped), the invocation of the restricted action, and the invocation of the
configured `onError` handler with an error. -/
inductive Event
  | dispatched (complete : Bool) (isPrepare : Bool) (prepareKey : String)
  | primaryCalled
  | primaryResolved
  | restrictedCalled
  | onErrorCalled (e : JsError)
deriving DecidableEq, Repr

/-- Overall outcome of one invocation of the thunk: a synchronous throw, a
promise resolved with a value, or a promise rejected with an error. -/
inductive Outcome
  | thrown (e : SyncError)
  | resolved (v : JsValue)
  | rejected (e : JsError)
deriving DecidableEq, Repr

/-- Trace and outcome of one invocation. -/
structure InitResult where
  events : List Event
  outcome : Outcome

/-- First step of the promise chain (source lines 130 to 146): invoke the
primary action if scheduled (otherwise use the `Promise.resolve()`
placeholder), check that the returned value is thenable, and adopt it.
Returns the events of this step and the settlement the next step observes.
A `primaryResolved` event is recorded exactly when the primary result (or its
placeholder) fulfills. -/
def runPrimaryStep (cfg : InitConfig) (shouldCallInitAction : Bool) :
    List Event × PromiseOutcome :=
  if shouldCallInitAction then
    match cfg.initAction with
    | some (.thenable (.fulfilled v)) => ([.primaryCalled, .primaryResolved], .fulfilled v)
    | some (.thenable (.rejectedWith e)) => ([.primaryCalled], .rejectedWith e)
    | some (.nonThenable typeName) =>
        ([.primaryCalled],
          .rejectedWith (mkInvalidReturnError cfg.initActionObjectParam typeName cfg.componentId))
    | some (.nullish isNull) => ([.primaryCalled], .rejectedWith (typeErrorReadingThen isNull))
    | none =>
        -- unreachable from initComponent: shouldCallInitAction implies the
        -- action is present; in JavaScript the call itself would throw a
        -- TypeError, which the chain turns into a rejection
        ([], .rejectedWith (typeErrorReadingThen false))
  else
    ([.primaryResolved], .fulfilled .undef)

/-- Second step of the promise chain (source lines 147 to 159): invoke the
restricted action if scheduled (otherwise use the `Promise.resolve()`
placeholder) and check that the returned value is thenable. -/
def runRestrictedStep (cfg : InitConfig) (shouldCallInitActionClient : Bool) :
    List Event × PromiseOutcome :=
  if shouldCallInitActionClient then
    match cfg.initActionClient with
    | some (.thenable (.fulfilled v)) => ([.restrictedCalled], .fulfilled v)
    | some (.thenable (.rejectedWith e)) => ([.restrictedCalled], .rejectedWith e)
    | some (.nonThenable typeName) =>
        ([.restrictedCalled],
          .rejectedWith (mkInvalidReturnClientError typeName cfg.componentId))
    | some (.nullish isNull) => ([.restrictedCalled], .rejectedWith (typeErrorReadingThen isNull))
    | none => ([], .rejectedWith (typeErrorReadingThen false))
  else
    ([], .fulfilled .undef)

/-- The promise chain before the catch (source lines 129 to 166): primary step,
then, only after the primary result has fulfilled, the restricted step, then
the result combination of lines 160 to 166. -/
def runChain (cfg : InitConfig) (shouldCallInitAction shouldCallInitActionClient : Bool) :
    List Event × PromiseOutcome :=
  match runPrimaryStep cfg shouldCallInitAction with
  | (ev1, .rejectedWith e) => (ev1, .rejectedWith e)
  | (ev1, .fulfilled serverValue) =>
    match runRestrictedStep cfg shouldCallInitActionClient with
    | (ev2, .rejectedWith e) => (ev1 ++ ev2, .rejectedWith e)
    | (ev2, .fulfilled clientValue) =>
      (ev1 ++ ev2,
        .fulfilled
          (if shouldCallInitAction && shouldCallInitActionClient then
            .arr2 serverValue clientValue
          else if shouldCallInitAction then serverValue
          else clientValue))

/-- The scheduled part of the thunk (source lines 120 to 194): dispatch the
start action, run the chain, apply the catch of lines 168 to 182 and the final
then of lines 183 to 194.  In the catch, when an `onError` handler is
configured and the error is not flagged `isInvalidReturnError`, the handler is
invoked and the chain recovers (so the final then dispatches the end action
and the call resolves with `undefined`) unless the handler itself throws, in
which case the final then never runs; otherwise the end action is dispatched
inside the catch and the error is re-thrown, so the final then never runs. -/
def executeScheduled (cfg : InitConfig) (isPrepare : Bool) (prepareKey : String)
    (shouldCallInitAction shouldCallInitActionClient : Bool) : InitResult :=
  let startEvent := Event.dispatched false isPrepare prepareKey
  let endEvent := Event.dispatched true isPrepare prepareKey
  match runChain cfg shouldCallInitAction shouldCallInitActionClient with
  | (chainEvents, .fulfilled v) =>
    { events := startEvent :: chainEvents ++ [endEvent], outcome := .resolved v }
  | (chainEvents, .rejectedWith e) =>
    match cfg.options.onError, e.isInvalidReturnError with
    | some handler, false =>
      match handler e with
      | none =>
        { events := startEvent :: chainEvents ++ [.onErrorCalled e, endEvent]
          outcome := .resolved .undef }
      | some e2 =>
        { events := startEvent :: chainEvents ++ [.onErrorCalled e]
          outcome := .rejected e2 }
    | _, _ =>
      { events := startEvent :: chainEvents ++ [endEvent], outcome := .rejected e }

/-- The `initComponent` thunk (source lines 32 to 195), as a function of the
component, the init values, the prepare key, the caller option, and the init
state slice found in the store (`none` models a falsy `getInitState` result).
Validation throws synchronously; if neither action is scheduled the call
resolves immediately with `undefined` and no events; otherwise the scheduled
part runs. -/
def initComponent (Component : ReactComponent) (initValues : List JsValue)
    (prepareKey : String) (caller : String) (initStateResult : Option InitState) :
    InitResult :=
  match Component.initConfig with
  | none => { events := [], outcome := .thrown .missingInitConfig }
  | some cfg =>
    let callerIsPrepare := caller == "prepareComponent"
    match initStateResult with
    | none => { events := [], outcome := .thrown .missingInitState }
    | some initState =>
      let isPrepared := (initState.prepared.lookup prepareKey).isSome
      match initDecision caller cfg.initAction.isSome cfg.initActionClient.isSome
          initState.mode isPrepared cfg.options.initSelf cfg.options.allowLazy with
      | none => { events := [], outcome := .thrown (.invalidCaller caller) }
      | some d =>
        if d.errorNotPrepared && (initState.prepared.lookup prepareKey).isNone then
          { events := []
            outcome := .thrown (.preparationMissing cfg.componentId
              (propNameValuesJson cfg.initProps initValues)) }
        else if d.errorNotPrepared && (initState.prepared.lookup prepareKey == some false) then
          { events := [], outcome := .thrown (.preparationPending cfg.componentId) }
        else if !d.shouldCallInitAction && !d.shouldCallInitActionClient then
          { events := [], outcome := .resolved .undef }
        else
          executeScheduled cfg callerIsPrepare prepareKey
            d.shouldCallInitAction d.shouldCallInitActionClient

/-- Caller names recognized by the decision table of section 4.1 of the spec.
`preparePass` is the `prepareComponent` caller, `willReceiveInputs` the
`willReceiveProps` caller. -/
inductive Caller
  | preparePass
  | willMount
  | didMount
  | willReceiveInputs
deriving DecidableEq, Repr

/-- Caller string passed to the thunk for each recognized caller. -/
def Caller.callerString : Caller → String
  | .preparePass => "prepareComponent"
  | .willMount => "willMount"
  | .didMount => "didMount"
  | .willReceiveInputs => "willReceiveProps"

/-- Decision table of section 4.1 of the spec, transcribed row by row from the
spec text (one row per caller, each entry the quoted boolean formula).  This
definition follows the words of the spec and is compared against the source
derived `initDecision`. -/
def specDecisionTable (c : Caller) (hasPrimary hasRestricted : Bool) (mode : Mode)
    (isPrepared : Bool) (initSelf : InitSelfMode) (allowLazy : Bool) : Decision :=
  match c with
  | .preparePass =>
      { errorNotPrepared := false
        shouldCallInitAction := hasPrimary && !isPrepared
        shouldCallInitActionClient := false }
  | .willMount =>
      { errorNotPrepared := hasPrimary && (mode == Mode.prepare) && !allowLazy
        shouldCallInitAction :=
          hasPrimary &&
            (((mode == Mode.initSelf) && !(initSelf == InitSelfMode.never) && !allowLazy) ||
              ((mode == Mode.prepare) && !isPrepared && allowLazy))
        shouldCallInitActionClient := false }
  | .didMount =>
      { errorNotPrepared := false
        shouldCallInitAction :=
          hasPrimary &&
            (((mode == Mode.initSelf) && !(initSelf == InitSelfMode.never) && allowLazy) ||
              ((mode == Mode.prepare) && !isPrepared && allowLazy))
        shouldCallInitActionClient := hasRestricted && !(initSelf == InitSelfMode.never) }
  | .willReceiveInputs =>
      { errorNotPrepared := false
        shouldCallInitAction := hasPrimary
        shouldCallInitActionClient := hasRestricted }

/-- Scan of an event trace: `true` iff no `restrictedCalled` event occurs
before the first `primaryResolved` event. -/
def restrictedAfterPrimaryResolved : List Event → Bool
  | [] => true
  | Event.primaryResolved :: _ => true
  | Event.restrictedCalled :: _ => false
  | _ :: rest => restrictedAfterPrimaryResolved rest

/-! ### Concrete instances used by the closed theorems -/

/-- Init state with prepare mode and an empty prepared map. -/
def stPrepareEmpty : InitState := { mode := Mode.prepare, prepared := [] }

/-- Init state with self-init mode and the key `"k"` fully prepared. -/
def stSelfPrepared : InitState := { mode := Mode.initSelf, prepared := [("k", true)] }

/-- Init state with prepare mode and the key `"k"` fully prepared. -/
def stPreparePrepared : InitState := { mode := Mode.prepare, prepared := [("k", true)] }

/-- Config with only a primary action resolving to `"A"` and no `onError`. -/
def cfgPrimaryOnly : InitConfig :=
  { componentId := "Post"
    initProps := ["id"]
    initAction := some (.thenable (.fulfilled (.str "A")))
    initActionClient := none
    initActionObjectParam := false
    options := { onError := none, initSelf := .async, allowLazy := false } }

/-- Config with both actions resolving to `"P"` and `"C"`, lazy allowed. -/
def cfgBoth : InitConfig :=
  { componentId := "Post"
    initProps := []
    initAction := some (.thenable (.fulfilled (.str "P")))
    initActionClient := some (.thenable (.fulfilled (.str "C")))
    initActionObjectParam := false
    options := { onError := none, initSelf := .async, allowLazy := true } }

/-- Config whose primary action returns `undefined` (a non-awaitable value)
while an `onError` handler that returns normally is configured. -/
def cfgNullishHandled : InitConfig :=
  { componentId := "Post"
    initProps := []
    initAction := some (.nullish false)
    initActionClient := none
    initActionObjectParam := false
    options := { onError := some fun _ => none, initSelf := .async, allowLazy := false } }

/-- Config whose primary action returns the plain number model (`typeof` is
`"number"`), with an `onError` handler configured. -/
def cfgNonThenable : InitConfig :=
  { componentId := "Post"
    initProps := []
    initAction := some (.nonThenable "number")
    initActionClient := none
    initActionObjectParam := false
    options := { onError := some fun _ => none, initSelf := .async, allowLazy := false } }

/-- Config with no primary action and a restricted action that returns `null`
(a non-awaitable value), while an `onError` handler that returns normally is
configured. -/
def cfgRestrictedNullish : InitConfig :=
  { componentId := "Post"
    initProps := []
    initAction := none
    initActionClient := some (.nullish true)
    initActionObjectParam := false
    options := { onError := some fun _ => none, initSelf := .async, allowLazy := false } }

/-- Config whose primary action rejects with an ordinary error, with an
`onError` handler that returns normally. -/
def cfgRejectHandled : InitConfig :=
  { componentId := "Post"
    initProps := []
    initAction := some (.thenable (.rejectedWith { message := "boom", isInvalidReturnError := false }))
    initActionClient := none
    initActionObjectParam := false
    options := { onError := some fun _ => none, initSelf := .async, allowLazy := false } }

/-- Config whose primary action rejects with an ordinary error, with an
`onError` handler that itself throws. -/
def cfgRejectHandlerThrows : InitConfig :=
  { componentId := "Post"
    initProps := []
    initAction := some (.thenable (.rejectedWith { message := "boom", isInvalidReturnError := false }))
    initActionClient := none
    initActionObjectParam := false
    options := { onError := some fun _ => some { message := "handler boom", isInvalidReturnError := false }
                 initSelf := .async
                 allowLazy := false } }

/-! ### Structural lemmas about the embedding -/

lemma runPrimaryStep_events_mem (cfg : InitConfig) (b : Bool) :
    ∀ ev ∈ (runPrimaryStep cfg b).1,
      ev = Event.primaryCalled ∨ ev = Event.primaryResolved := by
  intro ev hev
  unfold runPrimaryStep at hev
  split at hev
  · split at hev <;> simp_all
  · simp_all

lemma runRestrictedStep_events_mem (cfg : InitConfig) (b : Bool) :
    ∀ ev ∈ (runRestrictedStep cfg b).1, ev = Event.restrictedCalled := by
  intro ev hev
  unfold runRestrictedStep at hev
  split at hev
  · split at hev <;> simp_all
  · simp_all

lemma runChain_events_mem (cfg : InitConfig) (a c : Bool) :
    ∀ ev ∈ (runChain cfg a c).1,
      ev = Event.primaryCalled ∨ ev = Event.primaryResolved ∨ ev = Event.restrictedCalled := by
  intro ev hev
  unfold runChain at hev
  rcases h1 : runPrimaryStep cfg a with ⟨ev1, po1⟩
  rw [h1] at hev
  cases po1 with
  | rejectedWith e =>
      simp only at hev
      rcases runPrimaryStep_events_mem cfg a ev (by rw [h1]; exact hev) with h | h
      · exact Or.inl h
      · exact Or.inr (Or.inl h)
  | fulfilled v =>
      rcases h2 : runRestrictedStep cfg c with ⟨ev2, po2⟩
      rw [h2] at hev
      cases po2 <;> simp only [List.mem_append] at hev <;>
        rcases hev with hev | hev
      · rcases runPrimaryStep_events_mem cfg a ev (by rw [h1]; exact hev) with h | h
        · exact Or.inl h
        · exact Or.inr (Or.inl h)
      · exact Or.inr (Or.inr (runRestrictedStep_events_mem cfg c ev (by rw [h2]; exact hev)))
      · rcases runPrimaryStep_events_mem cfg a ev (by rw [h1]; exact hev) with h | h
        · exact Or.inl h
        · exact Or.inr (Or.inl h)
      · exact Or.inr (Or.inr (runRestrictedStep_events_mem cfg c ev (by rw [h2]; exact hev)))

lemma runChain_not_mem_dispatched (cfg : InitConfig) (a c : Bool) (b p : Bool) (k : String) :
    Event.dispatched b p k ∉ (runChain cfg a c).1 := by
  intro hmem
  rcases runChain_events_mem cfg a c _ hmem with h | h | h <;> simp at h

lemma runChain_not_mem_onError (cfg : InitConfig) (a c : Bool) (e : JsError) :
    Event.onErrorCalled e ∉ (runChain cfg a c).1 := by
  intro hmem
  rcases runChain_events_mem cfg a c _ hmem with h | h | h <;> simp at h

lemma runChain_count_dispatched (cfg : InitConfig) (a c : Bool) (b p : Bool) (k : String) :
    (runChain cfg a c).1.count (Event.dispatched b p k) = 0 :=
  List.count_eq_zero.mpr (runChain_not_mem_dispatched cfg a c b p k)

lemma runChain_count_onError (cfg : InitConfig) (a c : Bool) (e : JsError) :
    (runChain cfg a c).1.count (Event.onErrorCalled e) = 0 :=
  List.count_eq_zero.mpr (runChain_not_mem_onError cfg a c e)

lemma executeScheduled_fulfilled (cfg : InitConfig) (p : Bool) (k : String) (a c : Bool)
    (evs : List Event) (v : JsValue) (h : runChain cfg a c = (evs, .fulfilled v)) :
    executeScheduled cfg p k a c =
      { events := Event.dispatched false p k :: evs ++ [Event.dispatched true p k]
        outcome := .resolved v } := by
  unfold executeScheduled
  rw [h]

lemma executeScheduled_handled (cfg : InitConfig) (p : Bool) (k : String) (a c : Bool)
    (evs : List Event) (e : JsError) (handler : JsError → Option JsError)
    (h : runChain cfg a c = (evs, .rejectedWith e))
    (hflag : e.isInvalidReturnError = false)
    (hoe : cfg.options.onError = some handler)
    (hh : handler e = none) :
    executeScheduled cfg p k a c =
      { events := Event.dispatched false p k :: evs ++
          [Event.onErrorCalled e, Event.dispatched true p k]
        outcome := .resolved .undef } := by
  simp only [executeScheduled, h, hoe, hflag, hh]

lemma executeScheduled_handler_throws (cfg : InitConfig) (p : Bool) (k : String) (a c : Bool)
    (evs : List Event) (e e2 : JsError) (handler : JsError → Option JsError)
    (h : runChain cfg a c = (evs, .rejectedWith e))
    (hflag : e.isInvalidReturnError = false)
    (hoe : cfg.options.onError = some handler)
    (hh : handler e = some e2) :
    executeScheduled cfg p k a c =
      { events := Event.dispatched false p k :: evs ++ [Event.onErrorCalled e]
        outcome := .rejected e2 } := by
  simp only [executeScheduled, h, hoe, hflag, hh]

lemma executeScheduled_propagated (cfg : InitConfig) (p : Bool) (k : String) (a c : Bool)
    (evs : List Event) (e : JsError) (h : runChain cfg a c = (evs, .rejectedWith e))
    (hcase : cfg.options.onError = none ∨ e.isInvalidReturnError = true) :
    executeScheduled cfg p k a c =
      { events := Event.dispatched false p k :: evs ++ [Event.dispatched true p k]
        outcome := .rejected e } := by
  rcases hcase with hoe | hflag
  · simp only [executeScheduled, h, hoe]
  · rcases hoe : cfg.options.onError with _ | handler
    · simp only [executeScheduled, h, hoe]
    · simp only [executeScheduled, h, hoe, hflag]

lemma executeScheduled_not_thrown (cfg : InitConfig) (p : Bool) (k : String) (a c : Bool)
    (err : SyncError) : (executeScheduled cfg p k a c).outcome ≠ .thrown err := by
  rcases h : runChain cfg a c with ⟨evs, po⟩
  cases po with
  | fulfilled v => simp [executeScheduled, h]
  | rejectedWith e =>
      rcases hoe : cfg.options.onError with _ | handler
      · simp [executeScheduled, h, hoe]
      · rcases hflag : e.isInvalidReturnError
        · rcases hh : handler e with _ | e2 <;> simp [executeScheduled, h, hoe, hflag, hh]
        · simp [executeScheduled, h, hoe, hflag]

/-- Unfolding of `initComponent` on a component with an init config and a
present init state, down to the decision match. -/
lemma initComponent_eq_decision (cfg : InitConfig) (initValues : List JsValue)
    (key caller : String) (st : InitState) :
    initComponent ⟨some cfg⟩ initValues key caller (some st) =
      (match initDecision caller cfg.initAction.isSome cfg.initActionClient.isSome
          st.mode (st.prepared.lookup key).isSome cfg.options.initSelf cfg.options.allowLazy with
      | none => { events := [], outcome := .thrown (.invalidCaller caller) }
      | some d =>
        if d.errorNotPrepared && (st.prepared.lookup key).isNone then
          { events := []
            outcome := .thrown (.preparationMissing cfg.componentId
              (propNameValuesJson cfg.initProps initValues)) }
        else if d.errorNotPrepared && (st.prepared.lookup key == some false) then
          { events := [], outcome := .thrown (.preparationPending cfg.componentId) }
        else if !d.shouldCallInitAction && !d.shouldCallInitActionClient then
          { events := [], outcome := .resolved .undef }
        else
          executeScheduled cfg (caller == "prepareComponent") key
            d.shouldCallInitAction d.shouldCallInitActionClient) := rfl

/-- When validation passes and at least one action is scheduled, the thunk is
its scheduled part. -/
lemma initComponent_eq_executeScheduled (cfg : InitConfig) (initValues : List JsValue)
    (key caller : String) (st : InitState) (d : Decision)
    (hd : initDecision caller cfg.initAction.isSome cfg.initActionClient.isSome
        st.mode (st.prepared.lookup key).isSome cfg.options.initSelf cfg.options.allowLazy =
        some d)
    (hv : d.errorNotPrepared = true → st.prepared.lookup key = some true)
    (hs : (d.shouldCallInitAction || d.shouldCallInitActionClient) = true) :
    initComponent ⟨some cfg⟩ initValues key caller (some st) =
      executeScheduled cfg (caller == "prepareComponent") key
        d.shouldCallInitAction d.shouldCallInitActionClient := by
  have h1 : (d.errorNotPrepared && (st.prepared.lookup key).isNone) = false := by
    rcases hb : d.errorNotPrepared
    · rfl
    · rw [hv hb]; rfl
  have h2 : (d.errorNotPrepared && (st.prepared.lookup key == some false)) = false := by
    rcases hb : d.errorNotPrepared
    · rfl
    · rw [hv hb]; rfl
  have h3 : (!d.shouldCallInitAction && !d.shouldCallInitActionClient) = false := by
    rcases ha : d.shouldCallInitAction
    · rcases hc : d.shouldCallInitActionClient
      · rw [ha, hc] at hs; exact absurd hs (by decide)
      · rfl
    · rfl
  simp [initComponent_eq_decision, hd, h1, h2, h3]

lemma runChain_both_fulfilled (cfg : InitConfig) (p c : JsValue)
    (ha : cfg.initAction = some (.thenable (.fulfilled p)))
    (hc : cfg.initActionClient = some (.thenable (.fulfilled c))) :
    runChain cfg true true =
      ([.primaryCalled, .primaryResolved, .restrictedCalled], .fulfilled (.arr2 p c)) := by
  simp [runChain, runPrimaryStep, runRestrictedStep, ha, hc]

lemma runChain_primary_only_fulfilled (cfg : InitConfig) (p : JsValue)
    (ha : cfg.initAction = some (.thenable (.fulfilled p))) :
    runChain cfg true false = ([.primaryCalled, .primaryResolved], .fulfilled p) := by
  simp [runChain, runPrimaryStep, runRestrictedStep, ha]

lemma runChain_restricted_only_fulfilled (cfg : InitConfig) (c : JsValue)
    (hc : cfg.initActionClient = some (.thenable (.fulfilled c))) :
    runChain cfg false true = ([.primaryResolved, .restrictedCalled], .fulfilled c) := by
  simp [runChain, runPrimaryStep, runRestrictedStep, hc]

lemma runChain_neither (cfg : InitConfig) :
    runChain cfg false false = ([.primaryResolved], .fulfilled .undef) := by
  simp [runChain, runPrimaryStep, runRestrictedStep]

lemma runChain_primary_nonThenable (cfg : InitConfig) (c : Bool) (tn : String)
    (ha : cfg.initAction = some (.nonThenable tn)) :
    runChain cfg true c =
      ([.primaryCalled],
        .rejectedWith (mkInvalidReturnError cfg.initActionObjectParam tn cfg.componentId)) := by
  simp [runChain, runPrimaryStep, ha]

lemma runChain_primary_nullish (cfg : InitConfig) (c : Bool) (isNull : Bool)
    (ha : cfg.initAction = some (.nullish isNull)) :
    runChain cfg true c = ([.primaryCalled], .rejectedWith (typeErrorReadingThen isNull)) := by
  simp [runChain, runPrimaryStep, ha]

lemma runChain_restricted_nonThenable (cfg : InitConfig) (a : Bool) (tn : String) (pv : JsValue)
    (hc : cfg.initActionClient = some (.nonThenable tn))
    (hA : a = true → cfg.initAction = some (.thenable (.fulfilled pv))) :
    runChain cfg a true =
      ((if a then [.primaryCalled, .primaryResolved] else [.primaryResolved]) ++
          [.restrictedCalled],
        .rejectedWith (mkInvalidReturnClientError tn cfg.componentId)) := by
  rcases a
  · simp [runChain, runPrimaryStep, runRestrictedStep, hc]
  · simp [runChain, runPrimaryStep, runRestrictedStep, hc, hA rfl]

lemma runChain_restricted_nullish (cfg : InitConfig) (a : Bool) (isNull : Bool) (pv : JsValue)
    (hc : cfg.initActionClient = some (.nullish isNull))
    (hA : a = true → cfg.initAction = some (.thenable (.fulfilled pv))) :
    runChain cfg a true =
      ((if a then [.primaryCalled, .primaryResolved] else [.primaryResolved]) ++
          [.restrictedCalled],
        .rejectedWith (typeErrorReadingThen isNull)) := by
  rcases a
  · simp [runChain, runPrimaryStep, runRestrictedStep, hc]
  · simp [runChain, runPrimaryStep, runRestrictedStep, hc, hA rfl]

/-! ### Ordering of the restricted action after the primary result -/

lemma restrictedAfterPrimaryResolved_of_not_mem :
    ∀ (l : List Event), Event.restrictedCalled ∉ l →
      restrictedAfterPrimaryResolved l = true := by
  intro l
  induction l with
  | nil => intro _; rfl
  | cons ev rest ih =>
      intro h
      simp only [List.mem_cons, not_or] at h
      cases ev with
      | primaryResolved => rfl
      | restrictedCalled => exact absurd rfl h.1
      | dispatched b p k => exact ih h.2
      | primaryCalled => exact ih h.2
      | onErrorCalled e => exact ih h.2

lemma restrictedAfterPrimaryResolved_spec :
    ∀ (l : List Event), restrictedAfterPrimaryResolved l = true →
      ∀ l1 l2, l = l1 ++ Event.restrictedCalled :: l2 → Event.primaryResolved ∈ l1 := by
  intro l
  induction l with
  | nil =>
      intro _ l1 l2 heq
      exact absurd heq (by simp)
  | cons ev rest ih =>
      intro h l1 l2 heq
      cases l1 with
      | nil =>
          simp only [List.nil_append] at heq
          injection heq with hev _
          subst hev
          exact absurd h (by simp [restrictedAfterPrimaryResolved])
      | cons a l1 =>
          simp only [List.cons_append] at heq
          injection heq with hev hrest
          subst hev
          cases ev with
          | primaryResolved => exact List.mem_cons_self _ _
          | restrictedCalled => exact absurd h (by simp [restrictedAfterPrimaryResolved])
          | dispatched b p k => exact List.mem_cons_of_mem _ (ih h l1 l2 hrest)
          | primaryCalled => exact List.mem_cons_of_mem _ (ih h l1 l2 hrest)
          | onErrorCalled e => exact List.mem_cons_of_mem _ (ih h l1 l2 hrest)

/-- The chain event list either opens with the primary invocation and
resolution markers (then the tail may hold the restricted invocation), or is a
failed or empty primary step holding no restricted invocation at all. -/
lemma runChain_shape (cfg : InitConfig) (a c : Bool) :
    (∃ l, (runChain cfg a c).1 = Event.primaryCalled :: Event.primaryResolved :: l) ∨
    (∃ l, (runChain cfg a c).1 = Event.primaryResolved :: l) ∨
    (runChain cfg a c).1 = [Event.primaryCalled] ∨
    (runChain cfg a c).1 = [] := by
  rcases a
  · rcases h2 : runRestrictedStep cfg c with ⟨ev2, po2⟩
    cases po2 <;> exact Or.inr (Or.inl ⟨ev2, by simp [runChain, runPrimaryStep, h2]⟩)
  · rcases ha : cfg.initAction with _ | r
    · exact Or.inr (Or.inr (Or.inr (by simp [runChain, runPrimaryStep, ha])))
    · rcases r with po1 | tn | isNull
      · rcases po1 with v | e
        · rcases h2 : runRestrictedStep cfg c with ⟨ev2, po2⟩
          cases po2 <;>
            exact Or.inl ⟨ev2, by simp [runChain, runPrimaryStep, ha, h2]⟩
        · exact Or.inr (Or.inr (Or.inl (by simp [runChain, runPrimaryStep, ha])))
      · exact Or.inr (Or.inr (Or.inl (by simp [runChain, runPrimaryStep, ha])))
      · exact Or.inr (Or.inr (Or.inl (by simp [runChain, runPrimaryStep, ha])))

/-- The events appended by the catch and final then are only the end dispatch
and `onError` invocations. -/
lemma executeScheduled_events_shape (cfg : InitConfig) (p : Bool) (k : String) (a c : Bool) :
    ∃ tail, (executeScheduled cfg p k a c).events =
        Event.dispatched false p k :: (runChain cfg a c).1 ++ tail ∧
      ∀ ev ∈ tail, ev = Event.dispatched true p k ∨ ∃ e, ev = Event.onErrorCalled e := by
  rcases hrc : runChain cfg a c with ⟨evs, po⟩
  cases po with
  | fulfilled v =>
      exact ⟨[Event.dispatched true p k], by simp [executeScheduled, hrc], by simp⟩
  | rejectedWith e =>
      rcases hoe : cfg.options.onError with _ | handler
      · exact ⟨[Event.dispatched true p k], by simp [executeScheduled, hrc, hoe], by simp⟩
      · rcases hflag : e.isInvalidReturnError
        · rcases hh : handler e with _ | e2
          · exact ⟨[Event.onErrorCalled e, Event.dispatched true p k],
              by simp [executeScheduled, hrc, hoe, hflag, hh], by simp⟩
          · exact ⟨[Event.onErrorCalled e],
              by simp [executeScheduled, hrc, hoe, hflag, hh], by simp⟩
        · exact ⟨[Event.dispatched true p k],
            by simp [executeScheduled, hrc, hoe, hflag], by simp⟩

lemma executeScheduled_ordered (cfg : InitConfig) (p : Bool) (k : String) (a c : Bool) :
    restrictedAfterPrimaryResolved (executeScheduled cfg p k a c).events = true := by
  obtain ⟨tail, htail, hmem⟩ := executeScheduled_events_shape cfg p k a c
  rw [htail]
  have htailok : Event.restrictedCalled ∉ tail := by
    intro hx
    rcases hmem _ hx with h | ⟨e, h⟩ <;> simp at h
  rcases runChain_shape cfg a c with ⟨l, hl⟩ | ⟨l, hl⟩ | hl | hl <;> rw [hl]
  · rfl
  · rfl
  · exact restrictedAfterPrimaryResolved_of_not_mem tail htailok
  · exact restrictedAfterPrimaryResolved_of_not_mem tail htailok

/-- In every invocation trace, no `restrictedCalled` event occurs before the
first `primaryResolved` event. -/
lemma initComponent_ordered (Component : ReactComponent) (initValues : List JsValue)
    (key caller : String) (initStateResult : Option InitState) :
    restrictedAfterPrimaryResolved
      (initComponent Component initValues key caller initStateResult).events = true := by
  rcases Component with ⟨_ | cfg⟩
  · rfl
  rcases initStateResult with _ | st
  · rfl
  rcases hd : initDecision caller cfg.initAction.isSome cfg.initActionClient.isSome
      st.mode (st.prepared.lookup key).isSome cfg.options.initSelf cfg.options.allowLazy
      with _ | d
  · simp only [initComponent_eq_decision, hd]
    rfl
  · simp only [initComponent_eq_decision, hd]
    split_ifs
    · rfl
    · rfl
    · rfl
    · exact executeScheduled_ordered cfg _ key _ _

/-! ### Claims -/

/-- C1: the decision engine computes exactly the decision table of section 4.1
of the spec: for every recognized caller and every combination of mode,
preparedness, `allowLazy`, `initSelf` and action presence flags, the switch of
the source computes the corresponding row of the table, and any other caller
value makes the thunk throw the invalid-caller error. -/
theorem C1_decision_table :
    (∀ (c : Caller) (hasPrimary hasRestricted : Bool) (mode : Mode) (isPrepared : Bool)
        (initSelf : InitSelfMode) (allowLazy : Bool),
      initDecision c.callerString hasPrimary hasRestricted mode isPrepared initSelf allowLazy =
        some (specDecisionTable c hasPrimary hasRestricted mode isPrepared initSelf allowLazy)) ∧
    (∀ (caller : String),
      caller ∉ (["prepareComponent", "willMount", "didMount", "willReceiveProps"] : List String) →
      (∀ (hasPrimary hasRestricted : Bool) (mode : Mode) (isPrepared : Bool)
          (initSelf : InitSelfMode) (allowLazy : Bool),
        initDecision caller hasPrimary hasRestricted mode isPrepared initSelf allowLazy = none) ∧
      (∀ (cfg : InitConfig) (initValues : List JsValue) (key : String) (st : InitState),
        initComponent ⟨some cfg⟩ initValues key caller (some st) =
          { events := [], outcome := .thrown (.invalidCaller caller) })) := by
  constructor
  · intro c hasPrimary hasRestricted mode isPrepared initSelf allowLazy
    cases c <;> rfl
  · intro caller hmem
    simp only [List.mem_cons, List.not_mem_nil, or_false, not_or] at hmem
    obtain ⟨h1, h2, h3, h4⟩ := hmem
    have hnone : ∀ (hasPrimary hasRestricted : Bool) (mode : Mode) (isPrepared : Bool)
        (initSelf : InitSelfMode) (allowLazy : Bool),
        initDecision caller hasPrimary hasRestricted mode isPrepared initSelf allowLazy = none := by
      intro hasPrimary hasRestricted mode isPrepared initSelf allowLazy
      simp [initDecision, h1, h2, h3, h4]
    refine ⟨hnone, ?_⟩
    intro cfg initValues key st
    rw [initComponent_eq_decision, hnone]

/-- C1 witness: the table row for `didMount` holds, and an unrecognized caller
string yields no decision. -/
theorem C1_decision_table_witness :
    initDecision "componentWillUnmount" true true Mode.prepare false InitSelfMode.async true =
      none ∧
    initDecision "didMount" true true Mode.initSelf false InitSelfMode.async true =
      some (specDecisionTable Caller.didMount true true Mode.initSelf false
        InitSelfMode.async true) := by
  constructor
  · exact (C1_decision_table.2 "componentWillUnmount" (by decide)).1 true true
      Mode.prepare false InitSelfMode.async true
  · exact C1_decision_table.1 Caller.didMount true true Mode.initSelf false
      InitSelfMode.async true

/-- C4: when the decision has `errorNotPrepared` set (caller `willMount` with a
primary action supplied, prepare mode, lazy not allowed), an absent
`prepared[key]` makes the call throw the `PreparationMissing` validation error
carrying the component identity and the serialized input values, a pending
(`false`) entry makes it throw the `PreparationPending` validation error, and
in both cases no event occurs (no action runs, nothing is dispatched); the
`PreparationMissing` message textually contains the component identity and the
serialized input values. -/
theorem C4_preparation_errors (cfg : InitConfig) (initValues : List JsValue) (key : String)
    (st : InitState) (hp : cfg.initAction.isSome = true) (hm : st.mode = Mode.prepare)
    (hl : cfg.options.allowLazy = false) :
    (st.prepared.lookup key = none →
      initComponent ⟨some cfg⟩ initValues key "willMount" (some st) =
        { events := []
          outcome := .thrown (.preparationMissing cfg.componentId
            (propNameValuesJson cfg.initProps initValues)) }) ∧
    (st.prepared.lookup key = some false →
      initComponent ⟨some cfg⟩ initValues key "willMount" (some st) =
        { events := [], outcome := .thrown (.preparationPending cfg.componentId) }) ∧
    (∃ l r, (SyncError.preparationMissing cfg.componentId
        (propNameValuesJson cfg.initProps initValues)).message =
        l ++ cfg.componentId ++ r) ∧
    (∃ l r, (SyncError.preparationMissing cfg.componentId
        (propNameValuesJson cfg.initProps initValues)).message =
        l ++ propNameValuesJson cfg.initProps initValues ++ r) := by
  have hd : initDecision "willMount" cfg.initAction.isSome cfg.initActionClient.isSome
      st.mode (st.prepared.lookup key).isSome cfg.options.initSelf cfg.options.allowLazy =
      some { errorNotPrepared := true, shouldCallInitAction := false
             shouldCallInitActionClient := false } := by
    unfold initDecision
    rw [if_neg (by decide), if_pos rfl, hp, hm, hl]
    simp
  refine ⟨?_, ?_, ?_, ?_⟩
  · intro h
    rw [initComponent_eq_decision, hd]
    simp [h]
  · intro h
    rw [initComponent_eq_decision, hd]
    simp [h]
  · exact ⟨"Expected component \"",
      "\" to be prepared but prepareComponent has not been called with props: \n" ++
        propNameValuesJson cfg.initProps initValues,
      by simp [SyncError.message, String.append_assoc]⟩
  · exact ⟨"Expected component \"" ++ cfg.componentId ++
      "\" to be prepared but prepareComponent has not been called with props: \n", "",
      by simp [SyncError.message, String.append_assoc]⟩

/-- C4 witness: a concrete unprepared `willMount` call in prepare mode without
lazy allowance throws the `PreparationMissing` validation error. -/
theorem C4_preparation_errors_witness :
    initComponent ⟨some cfgPrimaryOnly⟩ [.num 7] "k" "willMount" (some stPrepareEmpty) =
      { events := []
        outcome := .thrown (.preparationMissing "Post" (propNameValuesJson ["id"] [.num 7])) } :=
  (C4_preparation_errors cfgPrimaryOnly [.num 7] "k" stPrepareEmpty rfl rfl rfl).1 rfl

/-- C6: every invocation whose outcome is a synchronously thrown validation
error (missing config, missing state, invalid caller, preparation missing or
pending) has an empty event trace: nothing was dispatched, no action was
invoked, no handler ran — the observable state is unchanged. -/
theorem C6_validation_atomicity (Component : ReactComponent) (initValues : List JsValue)
    (key caller : String) (initStateResult : Option InitState) (err : SyncError)
    (h : (initComponent Component initValues key caller initStateResult).outcome =
      .thrown err) :
    (initComponent Component initValues key caller initStateResult).events = [] := by
  rcases Component with ⟨_ | cfg⟩
  · rfl
  rcases initStateResult with _ | st
  · rfl
  rcases hd : initDecision caller cfg.initAction.isSome cfg.initActionClient.isSome
      st.mode (st.prepared.lookup key).isSome cfg.options.initSelf cfg.options.allowLazy
      with _ | d
  · simp only [initComponent_eq_decision, hd]
  · simp only [initComponent_eq_decision, hd] at h ⊢
    split_ifs at h ⊢
    any_goals rfl
    exact absurd h (executeScheduled_not_thrown cfg _ key _ _ err)

/-- C6 witness: an invocation on a component without an init config throws,
and its event trace is empty. -/
theorem C6_validation_atomicity_witness :
    (initComponent ⟨none⟩ [] "k" "willMount" none).events = [] :=
  C6_validation_atomicity ⟨none⟩ [] "k" "willMount" none .missingInitConfig rfl

/-- C7: in every invocation trace, wherever the restricted action is invoked,
the resolution of the primary action result (or of its immediately resolved
placeholder when the primary action was skipped) occurs strictly earlier in
the trace: the restricted action never begins before the primary result has
resolved. -/
theorem C7_restricted_awaits_primary (Component : ReactComponent) (initValues : List JsValue)
    (key caller : String) (initStateResult : Option InitState) (l1 l2 : List Event)
    (h : (initComponent Component initValues key caller initStateResult).events =
      l1 ++ Event.restrictedCalled :: l2) :
    Event.primaryResolved ∈ l1 :=
  restrictedAfterPrimaryResolved_spec _
    (initComponent_ordered Component initValues key caller initStateResult) l1 l2 h

/-- C7 witness: in a concrete `didMount` run with both actions, the restricted
invocation is preceded by the primary resolution. -/
theorem C7_restricted_awaits_primary_witness :
    Event.primaryResolved ∈
      [Event.dispatched false false "k", Event.primaryCalled, Event.primaryResolved] :=
  C7_restricted_awaits_primary ⟨some cfgBoth⟩ [] "k" "didMount" (some stSelfPrepared)
    [Event.dispatched false false "k", Event.primaryCalled, Event.primaryResolved]
    [Event.dispatched true false "k"] (by decide)

/-- C9: every invocation that passes validation but whose decision schedules
neither action resolves immediately with the empty (`undefined`) result and an
empty event trace: no start notification and no end notification are
dispatched. -/
theorem C9_noop_resolves_silently (cfg : InitConfig) (initValues : List JsValue)
    (key caller : String) (st : InitState) (d : Decision)
    (hd : initDecision caller cfg.initAction.isSome cfg.initActionClient.isSome
        st.mode (st.prepared.lookup key).isSome cfg.options.initSelf cfg.options.allowLazy =
        some d)
    (hv : d.errorNotPrepared = true → st.prepared.lookup key = some true)
    (hA : d.shouldCallInitAction = false) (hC : d.shouldCallInitActionClient = false) :
    initComponent ⟨some cfg⟩ initValues key caller (some st) =
      { events := [], outcome := .resolved .undef } := by
  have h1 : (d.errorNotPrepared && (st.prepared.lookup key).isNone) = false := by
    rcases hb : d.errorNotPrepared
    · rfl
    · rw [hv hb]; rfl
  have h2 : (d.errorNotPrepared && (st.prepared.lookup key == some false)) = false := by
    rcases hb : d.errorNotPrepared
    · rfl
    · rw [hv hb]; rfl
  simp [initComponent_eq_decision, hd, h1, h2, hA, hC]

/-- C9 witness: a `prepareComponent` call on an already prepared key resolves
with `undefined` and dispatches nothing. -/
theorem C9_noop_resolves_silently_witness :
    initComponent ⟨some cfgPrimaryOnly⟩ [] "k" "prepareComponent" (some stPreparePrepared) =
      { events := [], outcome := .resolved .undef } :=
  C9_noop_resolves_silently cfgPrimaryOnly [] "k" "prepareComponent" stPreparePrepared
    { errorNotPrepared := false, shouldCallInitAction := false
      shouldCallInitActionClient := false } (by decide) (by decide) rfl rfl

/-- C2: for every invocation that passes validation and schedules at least one
action, the end notification (the `INIT_COMPONENT` dispatch with
`complete := true`, the caller's `isPrepare` flag and the prepare key) is
dispatched exactly once on every exit path covered by the claim — success,
failure handled by `onError`, and failure re-raised to the caller — which are
exactly the runs in which a configured handler, if it is ever invoked on the
chain failure, returns normally. -/
theorem C2_end_notification_once (cfg : InitConfig) (initValues : List JsValue)
    (key caller : String) (st : InitState) (d : Decision)
    (hd : initDecision caller cfg.initAction.isSome cfg.initActionClient.isSome
        st.mode (st.prepared.lookup key).isSome cfg.options.initSelf cfg.options.allowLazy =
        some d)
    (hv : d.errorNotPrepared = true → st.prepared.lookup key = some true)
    (hs : (d.shouldCallInitAction || d.shouldCallInitActionClient) = true)
    (hh : ∀ (handler : JsError → Option JsError) (e : JsError),
        cfg.options.onError = some handler →
        (runChain cfg d.shouldCallInitAction d.shouldCallInitActionClient).2 =
          .rejectedWith e →
        e.isInvalidReturnError = false → handler e = none) :
    ((initComponent ⟨some cfg⟩ initValues key caller (some st)).events.count
        (Event.dispatched true (caller == "prepareComponent") key)) = 1 := by
  rw [initComponent_eq_executeScheduled cfg initValues key caller st d hd hv hs]
  rcases hrc : runChain cfg d.shouldCallInitAction d.shouldCallInitActionClient with ⟨evs, po⟩
  have hevs : (runChain cfg d.shouldCallInitAction d.shouldCallInitActionClient).1 = evs := by
    rw [hrc]
  cases po with
  | fulfilled v =>
      rw [executeScheduled_fulfilled _ _ _ _ _ _ _ hrc]
      simp [List.count_cons, List.count_append, List.count_nil, ← hevs,
        runChain_count_dispatched]
  | rejectedWith e =>
      rcases hoe : cfg.options.onError with _ | handler
      · rw [executeScheduled_propagated _ _ _ _ _ _ _ hrc (Or.inl hoe)]
        simp [List.count_cons, List.count_append, List.count_nil, ← hevs,
          runChain_count_dispatched]
      · rcases hflag : e.isInvalidReturnError
        · have hhe := hh handler e hoe (by rw [hrc]) hflag
          rw [executeScheduled_handled _ _ _ _ _ _ _ _ hrc hflag hoe hhe]
          simp [List.count_cons, List.count_append, List.count_nil, ← hevs,
            runChain_count_dispatched]
        · rw [executeScheduled_propagated _ _ _ _ _ _ _ hrc (Or.inr hflag)]
          simp [List.count_cons, List.count_append, List.count_nil, ← hevs,
            runChain_count_dispatched]

/-- C2 witness: a concrete successful `willReceiveProps` run dispatches the end
notification exactly once. -/
theorem C2_end_notification_once_witness :
    ((initComponent ⟨some cfgPrimaryOnly⟩ [] "k" "willReceiveProps"
        (some stPrepareEmpty)).events.count (Event.dispatched true false "k")) = 1 :=
  C2_end_notification_once cfgPrimaryOnly [] "k" "willReceiveProps" stPrepareEmpty
    { errorNotPrepared := false, shouldCallInitAction := true
      shouldCallInitActionClient := false }
    (by decide) (by decide) rfl
    (fun handler e hcontra _ _ => absurd hcontra (by simp [cfgPrimaryOnly]))

/-- C5: when a scheduled action fails with a failure not flagged as an invalid
action return and an `onError` handler is configured (and returns normally),
the handler is invoked exactly once with that failure, the overall call
resolves successfully with `undefined`, and the end notification is still
dispatched exactly once. -/
theorem C5_onError_shields_caller (cfg : InitConfig) (initValues : List JsValue)
    (key caller : String) (st : InitState) (d : Decision)
    (hd : initDecision caller cfg.initAction.isSome cfg.initActionClient.isSome
        st.mode (st.prepared.lookup key).isSome cfg.options.initSelf cfg.options.allowLazy =
        some d)
    (hv : d.errorNotPrepared = true → st.prepared.lookup key = some true)
    (hs : (d.shouldCallInitAction || d.shouldCallInitActionClient) = true)
    (evs : List Event) (e : JsError) (handler : JsError → Option JsError)
    (hrc : runChain cfg d.shouldCallInitAction d.shouldCallInitActionClient =
      (evs, .rejectedWith e))
    (hflag : e.isInvalidReturnError = false)
    (hoe : cfg.options.onError = some handler)
    (hh : handler e = none) :
    (initComponent ⟨some cfg⟩ initValues key caller (some st)).outcome =
      .resolved .undef ∧
    (initComponent ⟨some cfg⟩ initValues key caller (some st)).events.count
      (Event.onErrorCalled e) = 1 ∧
    (initComponent ⟨some cfg⟩ initValues key caller (some st)).events.count
      (Event.dispatched true (caller == "prepareComponent") key) = 1 := by
  have hevs : (runChain cfg d.shouldCallInitAction d.shouldCallInitActionClient).1 = evs := by
    rw [hrc]
  rw [initComponent_eq_executeScheduled cfg initValues key caller st d hd hv hs,
    executeScheduled_handled _ _ _ _ _ _ _ _ hrc hflag hoe hh]
  refine ⟨rfl, ?_, ?_⟩
  · simp [List.count_cons, List.count_append, List.count_nil, ← hevs,
      runChain_count_onError]
  · simp [List.count_cons, List.count_append, List.count_nil, ← hevs,
      runChain_count_dispatched]

/-- C5 witness: a rejecting primary action with a configured handler that
returns normally yields a successful call, one handler invocation and one end
notification. -/
theorem C5_onError_shields_caller_witness :
    (initComponent ⟨some cfgRejectHandled⟩ [] "k" "willReceiveProps"
        (some stPrepareEmpty)).outcome = .resolved .undef ∧
    (initComponent ⟨some cfgRejectHandled⟩ [] "k" "willReceiveProps"
        (some stPrepareEmpty)).events.count
      (Event.onErrorCalled { message := "boom", isInvalidReturnError := false }) = 1 ∧
    (initComponent ⟨some cfgRejectHandled⟩ [] "k" "willReceiveProps"
        (some stPrepareEmpty)).events.count (Event.dispatched true false "k") = 1 :=
  C5_onError_shields_caller cfgRejectHandled [] "k" "willReceiveProps" stPrepareEmpty
    { errorNotPrepared := false, shouldCallInitAction := true
      shouldCallInitActionClient := false }
    (by decide) (by decide) rfl [Event.primaryCalled]
    { message := "boom", isInvalidReturnError := false } (fun _ => none) rfl rfl rfl rfl

/-- C10 (implicit): when a scheduled action fails, an `onError` handler is
configured, and the handler itself throws, the overall call rejects with the
handler's failure, the handler was invoked exactly once, and the end
notification is never dispatched for that invocation. -/
theorem C10_handler_throw_skips_end (cfg : InitConfig) (initValues : List JsValue)
    (key caller : String) (st : InitState) (d : Decision)
    (hd : initDecision caller cfg.initAction.isSome cfg.initActionClient.isSome
        st.mode (st.prepared.lookup key).isSome cfg.options.initSelf cfg.options.allowLazy =
        some d)
    (hv : d.errorNotPrepared = true → st.prepared.lookup key = some true)
    (hs : (d.shouldCallInitAction || d.shouldCallInitActionClient) = true)
    (evs : List Event) (e e2 : JsError) (handler : JsError → Option JsError)
    (hrc : runChain cfg d.shouldCallInitAction d.shouldCallInitActionClient =
      (evs, .rejectedWith e))
    (hflag : e.isInvalidReturnError = false)
    (hoe : cfg.options.onError = some handler)
    (hh : handler e = some e2) :
    (initComponent ⟨some cfg⟩ initValues key caller (some st)).outcome = .rejected e2 ∧
    (initComponent ⟨some cfg⟩ initValues key caller (some st)).events.count
      (Event.onErrorCalled e) = 1 ∧
    (initComponent ⟨some cfg⟩ initValues key caller (some st)).events.count
      (Event.dispatched true (caller == "prepareComponent") key) = 0 := by
  have hevs : (runChain cfg d.shouldCallInitAction d.shouldCallInitActionClient).1 = evs := by
    rw [hrc]
  rw [initComponent_eq_executeScheduled cfg initValues key caller st d hd hv hs,
    executeScheduled_handler_throws _ _ _ _ _ _ _ _ _ hrc hflag hoe hh]
  refine ⟨rfl, ?_, ?_⟩
  · simp [List.count_cons, List.count_append, List.count_nil, ← hevs,
      runChain_count_onError]
  · simp [List.count_cons, List.count_append, List.count_nil, ← hevs,
      runChain_count_dispatched]

/-- C10 witness: a rejecting primary action with a throwing handler makes the
call reject with the handler's failure and no end notification. -/
theorem C10_handler_throw_skips_end_witness :
    (initComponent ⟨some cfgRejectHandlerThrows⟩ [] "k" "willReceiveProps"
        (some stPrepareEmpty)).outcome =
      .rejected { message := "handler boom", isInvalidReturnError := false } ∧
    (initComponent ⟨some cfgRejectHandlerThrows⟩ [] "k" "willReceiveProps"
        (some stPrepareEmpty)).events.count
      (Event.onErrorCalled { message := "boom", isInvalidReturnError := false }) = 1 ∧
    (initComponent ⟨some cfgRejectHandlerThrows⟩ [] "k" "willReceiveProps"
        (some stPrepareEmpty)).events.count (Event.dispatched true false "k") = 0 :=
  C10_handler_throw_skips_end cfgRejectHandlerThrows [] "k" "willReceiveProps"
    stPrepareEmpty
    { errorNotPrepared := false, shouldCallInitAction := true
      shouldCallInitActionClient := false }
    (by decide) (by decide) rfl [Event.primaryCalled]
    { message := "boom", isInvalidReturnError := false }
    { message := "handler boom", isInvalidReturnError := false }
    (fun _ => some { message := "handler boom", isInvalidReturnError := false })
    rfl rfl rfl rfl

/-- C8: for every invocation that passes validation and whose chain succeeds,
the resolved result is the two-element array of both action results when both
ran, the single result when exactly one ran, and `undefined` when the decision
scheduled neither. -/
theorem C8_result_combination (cfg : InitConfig) (initValues : List JsValue)
    (key caller : String) (st : InitState) (d : Decision)
    (hd : initDecision caller cfg.initAction.isSome cfg.initActionClient.isSome
        st.mode (st.prepared.lookup key).isSome cfg.options.initSelf cfg.options.allowLazy =
        some d)
    (hv : d.errorNotPrepared = true → st.prepared.lookup key = some true) :
    (∀ p c, d.shouldCallInitAction = true → d.shouldCallInitActionClient = true →
      cfg.initAction = some (.thenable (.fulfilled p)) →
      cfg.initActionClient = some (.thenable (.fulfilled c)) →
      (initComponent ⟨some cfg⟩ initValues key caller (some st)).outcome =
        .resolved (.arr2 p c)) ∧
    (∀ p, d.shouldCallInitAction = true → d.shouldCallInitActionClient = false →
      cfg.initAction = some (.thenable (.fulfilled p)) →
      (initComponent ⟨some cfg⟩ initValues key caller (some st)).outcome = .resolved p) ∧
    (∀ c, d.shouldCallInitAction = false → d.shouldCallInitActionClient = true →
      cfg.initActionClient = some (.thenable (.fulfilled c)) →
      (initComponent ⟨some cfg⟩ initValues key caller (some st)).outcome = .resolved c) ∧
    (d.shouldCallInitAction = false → d.shouldCallInitActionClient = false →
      (initComponent ⟨some cfg⟩ initValues key caller (some st)).outcome =
        .resolved .undef) := by
  refine ⟨?_, ?_, ?_, ?_⟩
  · intro p c hA hC ha hc
    rw [initComponent_eq_executeScheduled cfg initValues key caller st d hd hv
        (by rw [hA]; rfl), hA, hC,
      executeScheduled_fulfilled _ _ _ _ _ _ _ (runChain_both_fulfilled cfg p c ha hc)]
  · intro p hA hC ha
    rw [initComponent_eq_executeScheduled cfg initValues key caller st d hd hv
        (by rw [hA]; rfl), hA, hC,
      executeScheduled_fulfilled _ _ _ _ _ _ _ (runChain_primary_only_fulfilled cfg p ha)]
  · intro c hA hC hc
    rw [initComponent_eq_executeScheduled cfg initValues key caller st d hd hv
        (by rw [hA, hC]; rfl), hA, hC,
      executeScheduled_fulfilled _ _ _ _ _ _ _ (runChain_restricted_only_fulfilled cfg c hc)]
  · intro hA hC
    have h1 : (d.errorNotPrepared && (st.prepared.lookup key).isNone) = false := by
      rcases hb : d.errorNotPrepared
      · rfl
      · rw [hv hb]; rfl
    have h2 : (d.errorNotPrepared && (st.prepared.lookup key == some false)) = false := by
      rcases hb : d.errorNotPrepared
      · rfl
      · rw [hv hb]; rfl
    simp [initComponent_eq_decision, hd, h1, h2, hA, hC]

/-- C8 witness: a `didMount` self-init run with both actions resolving to
`"P"` and `"C"` resolves with the two-element array of both results. -/
theorem C8_result_combination_witness :
    (initComponent ⟨some cfgBoth⟩ [] "k" "didMount" (some stSelfPrepared)).outcome =
      .resolved (.arr2 (.str "P") (.str "C")) :=
  (C8_result_combination cfgBoth [] "k" "didMount" stSelfPrepared
      { errorNotPrepared := false, shouldCallInitAction := true
        shouldCallInitActionClient := true }
      (by decide) (by decide)).1 (.str "P") (.str "C") rfl rfl rfl rfl

/-- C3 counterexample: an action that returns `undefined` — a value that does
not support asynchronous chaining — does not make the call fail with the
flagged invalid-return condition when an `onError` handler is configured: the
host TypeError raised by the `then` property access carries no
`isInvalidReturnError` flag, so it is passed to the handler and the call
resolves successfully, contradicting the claim that such failures always
propagate to the caller and are never passed to `onError`. -/
theorem C3_counterexample :
    (initComponent ⟨some cfgNullishHandled⟩ [] "k" "willReceiveProps"
        (some stPrepareEmpty)).outcome = .resolved .undef ∧
    (initComponent ⟨some cfgNullishHandled⟩ [] "k" "willReceiveProps"
        (some stPrepareEmpty)).events.count
      (Event.onErrorCalled (typeErrorReadingThen false)) = 1 ∧
    ∀ e, (initComponent ⟨some cfgNullishHandled⟩ [] "k" "willReceiveProps"
        (some stPrepareEmpty)).outcome ≠ .rejected e := by
  refine ⟨rfl, by decide, ?_⟩
  intro e h
  rw [show (initComponent ⟨some cfgNullishHandled⟩ [] "k" "willReceiveProps"
      (some stPrepareEmpty)).outcome = Outcome.resolved .undef from rfl] at h
  exact Outcome.noConfusion h

/-- C3 (amended): when a supplied action returns a non-awaitable value on
which property access succeeds (any value other than `null` and `undefined`),
the call rejects with the flagged invalid-return error naming the component
identity and the reported type, and this failure is never passed to a
configured `onError` handler; a `null` or `undefined` return — from the
primary action as well as from the restricted action — instead fails with a
host TypeError that carries no flag and is handled as an ordinary action
failure (in particular shielded by a configured `onError` handler). -/
theorem C3_invalid_return_behaviour (cfg : InitConfig) (initValues : List JsValue)
    (key caller : String) (st : InitState) (d : Decision)
    (hd : initDecision caller cfg.initAction.isSome cfg.initActionClient.isSome
        st.mode (st.prepared.lookup key).isSome cfg.options.initSelf cfg.options.allowLazy =
        some d)
    (hv : d.errorNotPrepared = true → st.prepared.lookup key = some true) :
    (∀ tn, d.shouldCallInitAction = true → cfg.initAction = some (.nonThenable tn) →
      (initComponent ⟨some cfg⟩ initValues key caller (some st)).outcome =
        .rejected (mkInvalidReturnError cfg.initActionObjectParam tn cfg.componentId) ∧
      (mkInvalidReturnError cfg.initActionObjectParam tn cfg.componentId).isInvalidReturnError =
        true ∧
      (∃ l r, (mkInvalidReturnError cfg.initActionObjectParam tn cfg.componentId).message =
        l ++ cfg.componentId ++ r) ∧
      (∃ l r, (mkInvalidReturnError cfg.initActionObjectParam tn cfg.componentId).message =
        l ++ tn ++ r) ∧
      ∀ e, Event.onErrorCalled e ∉
        (initComponent ⟨some cfg⟩ initValues key caller (some st)).events) ∧
    (∀ tn pv, d.shouldCallInitActionClient = true →
      cfg.initActionClient = some (.nonThenable tn) →
      (d.shouldCallInitAction = true → cfg.initAction = some (.thenable (.fulfilled pv))) →
      (initComponent ⟨some cfg⟩ initValues key caller (some st)).outcome =
        .rejected (mkInvalidReturnClientError tn cfg.componentId) ∧
      ∀ e, Event.onErrorCalled e ∉
        (initComponent ⟨some cfg⟩ initValues key caller (some st)).events) ∧
    (∀ isNull (handler : JsError → Option JsError),
      d.shouldCallInitAction = true → cfg.initAction = some (.nullish isNull) →
      cfg.options.onError = some handler → handler (typeErrorReadingThen isNull) = none →
      (initComponent ⟨some cfg⟩ initValues key caller (some st)).outcome =
        .resolved .undef) ∧
    (∀ isNull pv (handler : JsError → Option JsError),
      d.shouldCallInitActionClient = true → cfg.initActionClient = some (.nullish isNull) →
      (d.shouldCallInitAction = true → cfg.initAction = some (.thenable (.fulfilled pv))) →
      cfg.options.onError = some handler → handler (typeErrorReadingThen isNull) = none →
      (initComponent ⟨some cfg⟩ initValues key caller (some st)).outcome =
        .resolved .undef) := by
  refine ⟨?_, ?_, ?_, ?_⟩
  · intro tn hA ha
    have hres : initComponent ⟨some cfg⟩ initValues key caller (some st) =
        { events := Event.dispatched false (caller == "prepareComponent") key ::
            [Event.primaryCalled] ++
              [Event.dispatched true (caller == "prepareComponent") key]
          outcome :=
            .rejected (mkInvalidReturnError cfg.initActionObjectParam tn cfg.componentId) } := by
      rw [initComponent_eq_executeScheduled cfg initValues key caller st d hd hv
          (by rw [hA]; rfl), hA]
      exact executeScheduled_propagated _ _ _ _ _ _ _
        (runChain_primary_nonThenable cfg _ tn ha) (Or.inr rfl)
    refine ⟨by rw [hres], rfl,
      ⟨"Expected initAction" ++ (if cfg.initActionObjectParam then ".server" else "") ++
          " to return a Promise. Returned an " ++ tn ++
          " instead. Check the initAction for \"", "\"",
        by simp [mkInvalidReturnError, String.append_assoc]⟩,
      ⟨"Expected initAction" ++ (if cfg.initActionObjectParam then ".server" else "") ++
          " to return a Promise. Returned an ",
        " instead. Check the initAction for \"" ++ cfg.componentId ++ "\"",
        by simp [mkInvalidReturnError, String.append_assoc]⟩, ?_⟩
    intro e
    rw [hres]
    simp
  · intro tn pv hC ha hA
    have hres : initComponent ⟨some cfg⟩ initValues key caller (some st) =
        { events := Event.dispatched false (caller == "prepareComponent") key ::
            ((if d.shouldCallInitAction then
                [Event.primaryCalled, Event.primaryResolved]
              else [Event.primaryResolved]) ++ [Event.restrictedCalled]) ++
              [Event.dispatched true (caller == "prepareComponent") key]
          outcome := .rejected (mkInvalidReturnClientError tn cfg.componentId) } := by
      rw [initComponent_eq_executeScheduled cfg initValues key caller st d hd hv
          (by rw [hC]; simp), hC]
      exact executeScheduled_propagated _ _ _ _ _ _ _
        (runChain_restricted_nonThenable cfg _ tn pv ha hA) (Or.inr rfl)
    refine ⟨by rw [hres], ?_⟩
    intro e
    rw [hres]
    rcases d.shouldCallInitAction <;> simp
  · intro isNull handler hA ha hoe hh
    rw [initComponent_eq_executeScheduled cfg initValues key caller st d hd hv
        (by rw [hA]; rfl), hA,
      executeScheduled_handled _ _ _ _ _ _ _ _ (runChain_primary_nullish cfg _ isNull ha)
        rfl hoe hh]
  · intro isNull pv handler hC hc hA hoe hh
    rw [initComponent_eq_executeScheduled cfg initValues key caller st d hd hv
        (by rw [hC]; simp), hC,
      executeScheduled_handled _ _ _ _ _ _ _ _
        (runChain_restricted_nullish cfg _ isNull pv hc hA) rfl hoe hh]

/-- C3 witness: a primary action returning a plain number makes the concrete
call reject with the flagged invalid-return error even though an `onError`
handler is configured, and a restricted action returning `null` in a concrete
`didMount` self-init run is shielded by the configured handler. -/
theorem C3_invalid_return_behaviour_witness :
    (initComponent ⟨some cfgNonThenable⟩ [] "k" "willReceiveProps"
        (some stPrepareEmpty)).outcome =
      .rejected (mkInvalidReturnError false "number" "Post") ∧
    (∀ e, Event.onErrorCalled e ∉
      (initComponent ⟨some cfgNonThenable⟩ [] "k" "willReceiveProps"
        (some stPrepareEmpty)).events) ∧
    (initComponent ⟨some cfgRestrictedNullish⟩ [] "k" "didMount"
        (some stSelfPrepared)).outcome = .resolved .undef := by
  have h := (C3_invalid_return_behaviour cfgNonThenable [] "k" "willReceiveProps"
      stPrepareEmpty
      { errorNotPrepared := false, shouldCallInitAction := true
        shouldCallInitActionClient := false }
      (by decide) (by decide)).1 "number" rfl rfl
  have h2 := (C3_invalid_return_behaviour cfgRestrictedNullish [] "k" "didMount"
      stSelfPrepared
      { errorNotPrepared := false, shouldCallInitAction := false
        shouldCallInitActionClient := true }
      (by decide) (by decide)).2.2.2 true .undef (fun _ => none) rfl rfl
      (fun hcontra => absurd hcontra (by decide)) rfl rfl
  exact ⟨h.1, h.2.2.2.2, h2⟩

end ReduxInit
